import Mathlib

/-!
Verification of the QKD simulator core (`src/app.py`): the four protocol
engines (BB84, E91, BBM92, Teleportation), the security evaluator, and the
`run_simulation` request handler's custom-bit validation.

The quantum backend (`Aer.get_backend('qasm_simulator')`) is an external
collaborator; it is embedded through the §4.1 Measurement Oracle contract,
with every random draw it performs made an explicit input of each round.
Python bits (`0`/`1` ints) are `Nat`; backend outcome bits are `Bool`
converted with `Bool.toNat` at the point where the code calls `int(...)`
on a measured memory string.
-/

namespace QKDApp

/-- `SecurityMetrics`: the dict returned by
`QKDProtocol.calculate_security_metrics` (app.py lines 33-56).
Python floats are embedded as exact rationals. -/
structure SecurityMetrics where
  agreement_rate : ℚ
  qber : ℚ
  is_secure : Bool
  security_level : String
deriving Repr, DecidableEq

/-- `QKDProtocol.calculate_security_metrics` (app.py lines 28-56):
empty-key guard, position-by-position comparison over the zipped keys,
`qber = 1 - agreement_rate`, and the threshold classification
`is_secure = qber < 0.15`, level `High`/`Medium`/`Low` at `0.05`/`0.15`. -/
def calculate_security_metrics (alice_key bob_key : List Nat)
    (_eavesdropping : Bool) : SecurityMetrics :=
  if alice_key.isEmpty || bob_key.isEmpty then
    { agreement_rate := 0, qber := 1, is_secure := false, security_level := "Low" }
  else
    let total := min alice_key.length bob_key.length
    let matched := ((alice_key.take total).zip (bob_key.take total)).countP
      (fun p => p.1 == p.2)
    let agreement_rate : ℚ := (matched : ℚ) / (total : ℚ)
    let qber : ℚ := 1 - agreement_rate
    { agreement_rate := agreement_rate
      qber := qber
      is_secure := decide (qber < 0.15)
      security_level :=
        if qber < 0.05 then "High" else if qber < 0.15 then "Medium" else "Low" }

/-- `KeyPair`: the dict returned by every engine's `generate_key`
(`alice_key`, `bob_key`, `protocol`, `eavesdropping`). -/
structure KeyPair where
  alice_key : List Nat
  bob_key : List Nat
  protocol : String
  eavesdropping : Bool
deriving Repr, DecidableEq

/-- Python truthiness of the optional `custom_bits` argument as tested by
`if custom_bits:` in every engine: `None` and the empty string are falsy. -/
def py_truthy : Option (List Char) → Bool
  | none => false
  | some s => !s.isEmpty

/-- Python `int(c)` on a single character: a decimal digit parses to its
value, anything else raises `ValueError`. -/
def int_of_char (c : Char) : Except String Nat :=
  if c.isDigit then .ok (c.toNat - 48)
  else .error "invalid literal for int() with base 10"

/-- `[int(bit) for bit in custom_bits]` (fails at the first non-digit). -/
def int_list_of_chars : List Char → Except String (List Nat)
  | [] => .ok []
  | c :: cs => do
    let b ← int_of_char c
    let bs ← int_list_of_chars cs
    .ok (b :: bs)

/-- Modelled from the spec: the §4.1 single-qubit Measurement Oracle
contract — the Aer `qasm_simulator` backend is external to src/. On
matching preparation/measurement bases the prepared bit is returned
deterministically; on mismatched bases the outcome is the backend's
uniform draw, supplied here as an explicit input. -/
def measure_single (prepared : Bool) (prep_basis meas_basis : Bool)
    (mismatch_draw : Bool) : Bool :=
  if prep_basis = meas_basis then prepared else mismatch_draw

/-- A while-loop over an explicit finite list of per-round random draws:
`while guard(state): state = step(state, next_round)`. If the supplied
rounds run out first, the current (incomplete) state is returned — the
Python loop would simply still be running. -/
def sift_loop {α σ : Type} (guard : σ → Bool) (step : σ → α → σ) :
    List α → σ → σ
  | [], st => st
  | r :: rs, st => if guard st then sift_loop guard step rs (step st r) else st

/-- The random draws consumed by one BB84 round (app.py lines 101-145 and
152-196): Alice's bit (random mode only), both bases (`true` = diagonal),
the `random.random() < 0.3` Eve activation draw, Eve's basis, and the
backend's uniform outcomes for Eve's and Bob's mismatched-basis
measurements. -/
structure BB84Round where
  alice_bit : Bool
  alice_basis : Bool
  bob_basis : Bool
  eve_triggers : Bool
  eve_basis : Bool
  eve_mismatch : Bool
  bob_mismatch : Bool
deriving Repr, DecidableEq

/-- Bob's measured bit in one BB84 round: the optional intercept-resend by
Eve (she measures in her own basis and re-prepares her outcome in that
basis) followed by Bob's measurement, each through the §4.1 oracle. -/
def bb84_channel (prepared : Bool) (eav : Bool) (r : BB84Round) : Bool :=
  if eav && r.eve_triggers then
    let eve_result := measure_single prepared r.alice_basis r.eve_basis r.eve_mismatch
    measure_single eve_result r.eve_basis r.bob_basis r.bob_mismatch
  else
    measure_single prepared r.alice_basis r.bob_basis r.bob_mismatch

/-- One iteration of the BB84 custom-bits loop body (lines 101-145), on the
state `(bob_key, bit_index)`: Alice's bit is read at the cursor, prepared
with `qc.x` iff it equals 1, and on a basis match Bob's outcome is kept
and the cursor advances. -/
def bb84_custom_step (eav : Bool) (alice_key : List Nat)
    (st : List Nat × Nat) (r : BB84Round) : List Nat × Nat :=
  let alice_bit := alice_key.getD st.2 0
  let bob_result := bb84_channel (alice_bit == 1) eav r
  if r.alice_basis = r.bob_basis then (st.1 ++ [bob_result.toNat], st.2 + 1)
  else st

/-- One iteration of the BB84 random-mode loop body (lines 152-196), on the
state `(alice_key, bob_key)`. -/
def bb84_random_step (eav : Bool) (st : List Nat × List Nat)
    (r : BB84Round) : List Nat × List Nat :=
  let bob_result := bb84_channel r.alice_bit eav r
  if r.alice_basis = r.bob_basis then
    (st.1 ++ [r.alice_bit.toNat], st.2 ++ [bob_result.toNat])
  else st

/-- `BB84Protocol.generate_key` (app.py lines 77-204). -/
def BB84Protocol.generate_key (key_length : Nat)
    (include_eavesdropping : Bool) (custom_bits : Option (List Char))
    (rounds : List BB84Round) : Except String KeyPair :=
  if py_truthy custom_bits then
    match int_list_of_chars (custom_bits.getD []) with
    | .error e => .error e
    | .ok custom_bit_list =>
    if custom_bit_list.length < key_length then
      .error ("Custom bits must be at least " ++ toString key_length ++
        " bits long")
    else
      let alice_key := custom_bit_list.take key_length
      let st := sift_loop (fun st => st.1.length < key_length)
        (bb84_custom_step include_eavesdropping alice_key) rounds ([], 0)
      .ok ⟨alice_key, st.1, "BB84", include_eavesdropping⟩
  else
    let st := sift_loop (fun st => st.1.length < key_length)
      (bb84_random_step include_eavesdropping) rounds ([], [])
    .ok ⟨st.1, st.2, "BB84", include_eavesdropping⟩

/-- The random draws of one E91 round (app.py lines 251-295 and 300-345):
bases from `randint(0, 2)` (0 rectilinear, 1 diagonal, 2 circular),
Alice's correlated outcome on a basis match, both independent outcomes on
a mismatch, the `random.random() < 0.25` Eve activation draw, and the raw
backend outcomes of measuring the pair Eve collapsed and re-prepared. -/
structure E91Round where
  alice_basis : Fin 3
  bob_basis : Fin 3
  pair_draw : Bool
  alice_mismatch : Bool
  bob_mismatch : Bool
  eve_triggers : Bool
  eve_alice_out : Bool
  eve_bob_out : Bool
deriving Repr, DecidableEq

/-- Modelled from the spec: the §4.1 entangled-pair Measurement Oracle
contract, returning `(int(measurements[1]), int(measurements[0]))` =
(Alice's qubit outcome, Bob's qubit outcome). On a basis match the
rectilinear/diagonal outcomes agree and the circular-basis outcomes are
complementary; on a mismatch both are independent backend draws. A round
Eve intercepted yields the raw outcomes of her re-prepared pair instead. -/
def e91_measurements (eav : Bool) (r : E91Round) : Bool × Bool :=
  if eav && r.eve_triggers then (r.eve_alice_out, r.eve_bob_out)
  else if r.alice_basis = r.bob_basis then
    (r.pair_draw, if r.alice_basis = 2 then !r.pair_draw else r.pair_draw)
  else (r.alice_mismatch, r.bob_mismatch)

/-- One iteration of the E91 custom-bits loop body (lines 251-295): on a
basis match Bob keeps his outcome (flipped in the circular basis) and the
cursor advances. Alice's custom bits are never fed into the circuit. -/
def e91_custom_step (eav : Bool) (st : List Nat × Nat) (r : E91Round) :
    List Nat × Nat :=
  let m := e91_measurements eav r
  if r.alice_basis = r.bob_basis then
    let bob_bit := if r.alice_basis = 2 then 1 - m.2.toNat else m.2.toNat
    (st.1 ++ [bob_bit], st.2 + 1)
  else st

/-- One iteration of the E91 random-mode loop body (lines 300-345). -/
def e91_random_step (eav : Bool) (st : List Nat × List Nat) (r : E91Round) :
    List Nat × List Nat :=
  let m := e91_measurements eav r
  if r.alice_basis = r.bob_basis then
    let bob_bit := if r.alice_basis = 2 then 1 - m.2.toNat else m.2.toNat
    (st.1 ++ [m.1.toNat], st.2 ++ [bob_bit])
  else st

/-- `E91Protocol.generate_key` (app.py lines 230-347). -/
def E91Protocol.generate_key (key_length : Nat)
    (include_eavesdropping : Bool) (custom_bits : Option (List Char))
    (rounds : List E91Round) : Except String KeyPair :=
  if py_truthy custom_bits then
    match int_list_of_chars (custom_bits.getD []) with
    | .error e => .error e
    | .ok custom_bit_list =>
    if custom_bit_list.length < key_length then
      .error ("Custom bits must be at least " ++ toString key_length ++
        " bits long")
    else
      let alice_key := custom_bit_list.take key_length
      let st := sift_loop (fun st => st.1.length < key_length)
        (e91_custom_step include_eavesdropping) rounds ([], 0)
      .ok ⟨alice_key, st.1, "E91", include_eavesdropping⟩
  else
    let st := sift_loop (fun st => st.1.length < key_length)
      (e91_random_step include_eavesdropping) rounds ([], [])
    .ok ⟨st.1, st.2, "E91", include_eavesdropping⟩

/-- The random draws of one BBM92 round (app.py lines 379-406 and
411-438): bases from `random.choice(['rectilinear', 'diagonal'])`
(`true` = diagonal), the correlated/mismatch outcomes, the
`random.random() < 0.3` Eve activation draw, and the raw outcomes of Eve's
re-prepared pair. -/
structure BBM92Round where
  alice_basis : Bool
  bob_basis : Bool
  pair_draw : Bool
  alice_mismatch : Bool
  bob_mismatch : Bool
  eve_triggers : Bool
  eve_alice_out : Bool
  eve_bob_out : Bool
deriving Repr, DecidableEq

/-- Modelled from the spec: the §4.1 entangled-pair oracle contract for the
two-basis BBM92 setting — matching-basis outcomes agree, mismatched-basis
outcomes are independent draws, Eve-intercepted rounds yield the raw
outcomes of her re-prepared pair. -/
def bbm92_measurements (eav : Bool) (r : BBM92Round) : Bool × Bool :=
  if eav && r.eve_triggers then (r.eve_alice_out, r.eve_bob_out)
  else if r.alice_basis = r.bob_basis then (r.pair_draw, r.pair_draw)
  else (r.alice_mismatch, r.bob_mismatch)

/-- One iteration of the BBM92 custom-bits loop body (lines 379-406). -/
def bbm92_custom_step (eav : Bool) (st : List Nat × Nat) (r : BBM92Round) :
    List Nat × Nat :=
  let m := bbm92_measurements eav r
  if r.alice_basis = r.bob_basis then (st.1 ++ [m.2.toNat], st.2 + 1)
  else st

/-- One iteration of the BBM92 random-mode loop body (lines 411-438). -/
def bbm92_random_step (eav : Bool) (st : List Nat × List Nat)
    (r : BBM92Round) : List Nat × List Nat :=
  let m := bbm92_measurements eav r
  if r.alice_basis = r.bob_basis then
    (st.1 ++ [m.1.toNat], st.2 ++ [m.2.toNat])
  else st

/-- `BBM92Protocol.generate_key` (app.py lines 359-440). -/
def BBM92Protocol.generate_key (key_length : Nat)
    (include_eavesdropping : Bool) (custom_bits : Option (List Char))
    (rounds : List BBM92Round) : Except String KeyPair :=
  if py_truthy custom_bits then
    match int_list_of_chars (custom_bits.getD []) with
    | .error e => .error e
    | .ok custom_bit_list =>
    if custom_bit_list.length < key_length then
      .error ("Custom bits must be at least " ++ toString key_length ++
        " bits long")
    else
      let alice_key := custom_bit_list.take key_length
      let st := sift_loop (fun st => st.1.length < key_length)
        (bbm92_custom_step include_eavesdropping) rounds ([], 0)
      .ok ⟨alice_key, st.1, "BBM92", include_eavesdropping⟩
  else
    let st := sift_loop (fun st => st.1.length < key_length)
      (bbm92_random_step include_eavesdropping) rounds ([], [])
    .ok ⟨st.1, st.2, "BBM92", include_eavesdropping⟩

/-- The random draws consumed by one Teleportation round (app.py lines
472-500 and 505-534): the random-mode secret bit, the backend's sampled
outcomes for Alice's measurement of qubits 0 and 1 (classical bits c0 and
c1 — by the teleportation algebra each is a uniform bit), and the
`random.random() < 0.2` and `< 0.3` eavesdropping draws. -/
structure TeleRound where
  secret_draw : Bool
  alice_c0 : Bool
  alice_c1 : Bool
  eve_triggers : Bool
  eve_flips : Bool
deriving Repr, DecidableEq

/-- Bob's correction circuit `bob_qc` (app.py lines 494-499), embedded
from the source: `QuantumCircuit(1, 1)` starts a fresh qubit in the |0⟩
state; `bob_qc.x(0)` is applied iff `alice_measurements[1] == '1'`, then
`bob_qc.z(0)` iff `alice_measurements[0] == '1'`; an X gate flips a
computational-basis state while a Z gate only changes its phase, so the
final `measure` deterministically returns the X-corrected bit. The
entangled qubit 2 of the three-qubit circuit is never used. -/
def bob_reconstruct (mem0 mem1 : Bool) : Bool :=
  let q0 : Bool := false
  let q1 : Bool := if mem1 then !q0 else q0
  let q2 : Bool := if mem0 then q1 else q1
  q2

/-- Bob's bit for one round. The `alice_measurements` memory string
(app.py line 491) of the `QuantumCircuit(3, 3)` lists classical bits
`c2 c1 c0`; the circuit measures only qubits 0 and 1 (into c0 and c1), so
index 0 — classical bit 2 — is always `'0'` and index 1 is c1. -/
def teleport_bob_bit (r : TeleRound) : Bool :=
  bob_reconstruct false r.alice_c1

/-- `TeleportationQKD.generate_key` (app.py lines 452-536). The per-bit
loop is `for i in range(key_length)` — one round per output bit
unconditionally, so the draws are an infinite stream. The secret bit
(custom or random) is prepared into qubit 0 of Alice's circuit but never
reaches Bob's fresh one-qubit circuit, whose outcome is
`teleport_bob_bit`. -/
def TeleportationQKD.generate_key (key_length : Nat)
    (include_eavesdropping : Bool) (custom_bits : Option (List Char))
    (rounds : Nat → TeleRound) : Except String KeyPair :=
  if py_truthy custom_bits then
    match int_list_of_chars (custom_bits.getD []) with
    | .error e => .error e
    | .ok custom_bit_list =>
    if custom_bit_list.length < key_length then
      .error ("Custom bits must be at least " ++ toString key_length ++
        " bits long")
    else
      let alice_key := custom_bit_list.take key_length
      let bob_key := (List.range key_length).map (fun i =>
        (teleport_bob_bit (rounds i)).toNat)
      .ok ⟨alice_key, bob_key, "Teleportation QKD", include_eavesdropping⟩
  else
    .ok ⟨(List.range key_length).map (fun i => (rounds i).secret_draw.toNat),
      (List.range key_length).map (fun i =>
        (teleport_bob_bit (rounds i)).toNat),
      "Teleportation QKD", include_eavesdropping⟩

/-- An error response of the `/run_simulation` route: the JSON message and
the HTTP status (400 for input validation, 500 for an engine exception). -/
structure ApiError where
  message : String
  status : Nat
deriving Repr, DecidableEq

/-- The key-generation portion of the `/run_simulation` route (app.py lines
562-616), generic in the selected engine and its round-draw type: the
custom-bits path (taken when `use_custom_bits` and `custom_bits` is
non-empty) validates the alphabet and then the length, answering HTTP 400
before the engine ever runs; an engine exception surfaces as HTTP 500;
otherwise metrics are computed on the produced key pair. -/
def run_simulation {ρ : Type}
    (engine : Nat → Bool → Option (List Char) → ρ → Except String KeyPair)
    (key_length : Nat) (include_eavesdropping use_custom_bits : Bool)
    (custom_bits : List Char) (rounds : ρ) :
    Except ApiError (KeyPair × SecurityMetrics) :=
  let run (cb : Option (List Char)) :
      Except ApiError (KeyPair × SecurityMetrics) :=
    match engine key_length include_eavesdropping cb rounds with
    | .ok key_data =>
        .ok (key_data, calculate_security_metrics key_data.alice_key
          key_data.bob_key include_eavesdropping)
    | .error msg => .error ⟨msg, 500⟩
  if use_custom_bits && !custom_bits.isEmpty then
    if !(custom_bits.all fun c => c == '0' || c == '1') then
      .error ⟨"Custom bits must contain only 0s and 1s", 400⟩
    else if custom_bits.length < key_length then
      .error ⟨"Custom bits must be at least " ++ toString key_length ++
        " characters long", 400⟩
    else run (some custom_bits)
  else run none

end QKDApp

namespace QKDApp

/-- C8: For every pair of keys where at least one key is empty,
`calculate_security_metrics` returns exactly `agreement_rate = 0.0`,
`qber = 1.0`, `is_secure = false`, `security_level = "Low"`. -/
theorem empty_key_metrics (alice_key bob_key : List Nat) (e : Bool)
    (h : alice_key = [] ∨ bob_key = []) :
    calculate_security_metrics alice_key bob_key e =
      { agreement_rate := 0, qber := 1, is_secure := false, security_level := "Low" } := by
  rcases h with h | h <;>
    simp [calculate_security_metrics, h]

/-- Witness for C8 at the concrete input `evaluate([], [])`. -/
theorem empty_key_metrics_witness :
    calculate_security_metrics [] [] false =
      { agreement_rate := 0, qber := 1, is_secure := false, security_level := "Low" } :=
  empty_key_metrics [] [] false (Or.inl rfl)

/-- The zip count used by the evaluator equals a position-by-position count
of agreeing indices below the truncated length. -/
lemma countP_zip_eq_count_range (ak bk : List Nat) :
    ((ak.zip bk).countP (fun p => p.1 == p.2)) =
      (List.range (min ak.length bk.length)).countP
        (fun i => ak.getD i 0 == bk.getD i 1) := by
  induction ak generalizing bk with
  | nil => simp
  | cons a as ih =>
    cases bk with
    | nil => simp
    | cons b bs =>
      simp only [List.zip_cons_cons, List.countP_cons, List.length_cons,
        Nat.succ_min_succ, List.range_succ_eq_map, List.countP_map]
      rw [ih bs]
      simp [Function.comp_def, Nat.add_comm]

/-- Truncating both keys to their min length before zipping changes nothing. -/
lemma take_zip_take (ak bk : List Nat) :
    (ak.take (min ak.length bk.length)).zip (bk.take (min ak.length bk.length)) =
      ak.zip bk := by
  induction ak generalizing bk with
  | nil => simp
  | cons a as ih =>
    cases bk with
    | nil => simp
    | cons b bs =>
      simp only [List.length_cons, Nat.succ_min_succ, List.take_succ_cons,
        List.zip_cons_cons]
      rw [ih bs]

/-- C7: For non-empty keys the evaluator compares positions
`0 .. min(len(alice_key), len(bob_key)) - 1`, returns
`agreement_rate = matches / compared_length` and `qber = 1 - agreement_rate`;
a length mismatch is tolerated by truncation, and
`evaluate([1,0,1,1], [1,1,1,0])` gives `agreement_rate = 0.5`, `qber = 0.5`. -/
theorem metrics_truncating_comparison (ak bk : List Nat) (e : Bool)
    (ha : ak ≠ []) (hb : bk ≠ []) :
    (calculate_security_metrics ak bk e).agreement_rate =
      ((List.range (min ak.length bk.length)).countP
          (fun i => ak.getD i 0 == bk.getD i 1) : ℚ) /
        ((min ak.length bk.length : Nat) : ℚ) ∧
    (calculate_security_metrics ak bk e).qber =
      1 - (calculate_security_metrics ak bk e).agreement_rate ∧
    calculate_security_metrics [1, 0, 1, 1] [1, 1, 1, 0] e =
      { agreement_rate := 1/2, qber := 1/2, is_secure := false,
        security_level := "Low" } := by
  have hA : ak.isEmpty = false := by simpa [List.isEmpty_iff] using ha
  have hB : bk.isEmpty = false := by simpa [List.isEmpty_iff] using hb
  refine ⟨?_, ?_, ?_⟩
  · simp only [calculate_security_metrics, hA, hB, Bool.false_or, if_neg Bool.false_ne_true]
    rw [take_zip_take, countP_zip_eq_count_range]
  · simp only [calculate_security_metrics, hA, hB, Bool.false_or, if_neg Bool.false_ne_true]
  · norm_num [calculate_security_metrics, List.countP_cons, SecurityMetrics.mk.injEq,
      decide_eq_false_iff_not]

/-- Witness for C7 at the spec's concrete example `evaluate([1,0,1,1], [1,1,1,0])`. -/
theorem metrics_truncating_comparison_witness :
    calculate_security_metrics [1, 0, 1, 1] [1, 1, 1, 0] false =
      { agreement_rate := 1/2, qber := 1/2, is_secure := false,
        security_level := "Low" } :=
  (metrics_truncating_comparison [1, 0, 1, 1] [1, 1, 1, 0] false
    (by decide) (by decide)).2.2

/-- The three-way threshold chooser used on line 49 of app.py, analyzed
exhaustively over the three ranges of `q`. -/
lemma level_iff (q : ℚ) :
    ((if q < 0.05 then "High" else if q < 0.15 then "Medium" else "Low") = "High"
        ↔ q < 0.05) ∧
    ((if q < 0.05 then "High" else if q < 0.15 then "Medium" else "Low") = "Medium"
        ↔ 0.05 ≤ q ∧ q < 0.15) ∧
    ((if q < 0.05 then "High" else if q < 0.15 then "Medium" else "Low") = "Low"
        ↔ 0.15 ≤ q) := by
  by_cases h05 : q < 0.05
  · simp only [if_pos h05]
    refine ⟨by simp [h05], ?_, ?_⟩
    · constructor
      · intro h; exact absurd h (by decide)
      · rintro ⟨h, _⟩; linarith
    · constructor
      · intro h; exact absurd h (by decide)
      · intro h; linarith
  · by_cases h15 : q < 0.15
    · simp only [if_neg h05, if_pos h15]
      refine ⟨?_, ?_, ?_⟩
      · constructor
        · intro h; exact absurd h (by decide)
        · intro h; exact absurd h h05
      · simp [h15, not_lt.mp h05]
      · constructor
        · intro h; exact absurd h (by decide)
        · intro h; linarith
    · simp only [if_neg h05, if_neg h15]
      refine ⟨?_, ?_, ?_⟩
      · constructor
        · intro h; exact absurd h (by decide)
        · intro h; exact absurd h h05
      · constructor
        · intro h; exact absurd h (by decide)
        · rintro ⟨_, h⟩; exact absurd h h15
      · simp [not_lt.mp h15]

/-- Both branches of `calculate_security_metrics` classify with
`is_secure = decide (qber < 0.15)` and the High/Medium/Low chooser. -/
lemma metrics_classified (ak bk : List Nat) (e : Bool) :
    (calculate_security_metrics ak bk e).is_secure
        = decide ((calculate_security_metrics ak bk e).qber < 0.15) ∧
    (calculate_security_metrics ak bk e).security_level
        = (if (calculate_security_metrics ak bk e).qber < 0.05 then "High"
           else if (calculate_security_metrics ak bk e).qber < 0.15 then "Medium"
           else "Low") := by
  unfold calculate_security_metrics
  by_cases h : ak.isEmpty || bk.isEmpty
  · simp only [h, if_true]
    norm_num
  · simp only [h]
    norm_num

/-- C6: The security classification uses strict-inequality thresholds:
`is_secure` iff `qber < 0.15`; level is `High` iff `qber < 0.05`, `Medium`
iff `0.05 ≤ qber < 0.15`, `Low` otherwise; `qber = 0.05` gives `Medium` and
`qber = 0.15` gives `Low` with `is_secure = false`. -/
theorem security_threshold_classification (ak bk : List Nat) (e : Bool) :
    ((calculate_security_metrics ak bk e).is_secure = true ↔
      (calculate_security_metrics ak bk e).qber < 0.15) ∧
    ((calculate_security_metrics ak bk e).security_level = "High" ↔
      (calculate_security_metrics ak bk e).qber < 0.05) ∧
    ((calculate_security_metrics ak bk e).security_level = "Medium" ↔
      (0.05 ≤ (calculate_security_metrics ak bk e).qber ∧
        (calculate_security_metrics ak bk e).qber < 0.15)) ∧
    ((calculate_security_metrics ak bk e).security_level = "Low" ↔
      0.15 ≤ (calculate_security_metrics ak bk e).qber) ∧
    ((calculate_security_metrics ak bk e).qber = 0.05 →
      (calculate_security_metrics ak bk e).security_level = "Medium") ∧
    ((calculate_security_metrics ak bk e).qber = 0.15 →
      (calculate_security_metrics ak bk e).security_level = "Low" ∧
        (calculate_security_metrics ak bk e).is_secure = false) := by
  rcases metrics_classified ak bk e with ⟨h1, h2⟩
  rcases level_iff ((calculate_security_metrics ak bk e).qber) with ⟨hH, hM, hL⟩
  rw [h1, h2]
  refine ⟨decide_eq_true_iff, hH, hM, hL, ?_, ?_⟩
  · intro hq
    rw [hM, hq]
    norm_num
  · intro hq
    rw [hL, hq]
    norm_num

/-- Witness for C6: a 20-bit key pair with one mismatch has `qber = 0.05`
exactly and is classified `Medium`; with three mismatches `qber = 0.15`
and it is classified `Low`, not secure. -/
theorem security_threshold_classification_witness :
    (calculate_security_metrics
        [1, 1, 1, 1, 1, 1, 1, 1, 1, 1, 1, 1, 1, 1, 1, 1, 1, 1, 1, 1]
        [0, 1, 1, 1, 1, 1, 1, 1, 1, 1, 1, 1, 1, 1, 1, 1, 1, 1, 1, 1]
        false).security_level = "Medium" ∧
    (calculate_security_metrics
        [1, 1, 1, 1, 1, 1, 1, 1, 1, 1, 1, 1, 1, 1, 1, 1, 1, 1, 1, 1]
        [0, 0, 0, 1, 1, 1, 1, 1, 1, 1, 1, 1, 1, 1, 1, 1, 1, 1, 1, 1]
        false).security_level = "Low" :=
  ⟨(security_threshold_classification _ _ false).2.2.2.2.1
      (by norm_num [calculate_security_metrics, List.countP_cons]),
    ((security_threshold_classification _ _ false).2.2.2.2.2
      (by norm_num [calculate_security_metrics, List.countP_cons])).1⟩

/-- Any property preserved by the loop body under the guard is an invariant
of `sift_loop`. -/
lemma sift_loop_invariant {α σ : Type} (guard : σ → Bool) (step : σ → α → σ)
    (P : σ → Prop) (hstep : ∀ st r, guard st = true → P st → P (step st r)) :
    ∀ (rounds : List α) (st : σ), P st → P (sift_loop guard step rounds st)
  | [], _, h => h
  | r :: rs, st, h => by
    unfold sift_loop
    by_cases hg : guard st
    · simp only [hg, if_true]
      exact sift_loop_invariant guard step P hstep rs (step st r)
        (hstep st r hg h)
    · simpa [hg] using h

/-- C10: For every protocol engine, `generate_key` with `custom_bits` equal
to the empty string behaves exactly like `generate_key` with `custom_bits`
absent — the Python truthiness test `if custom_bits:` sends both to the
random-mode branch — and the `/run_simulation` route likewise falls back to
random mode with no `InvalidCustomBits` error despite the empty string
being shorter than any positive `key_length`. -/
theorem empty_custom_bits_is_random_mode :
    (∀ (kl : Nat) (eav : Bool) (rounds : List BB84Round),
      BB84Protocol.generate_key kl eav (some []) rounds =
        BB84Protocol.generate_key kl eav none rounds) ∧
    (∀ (kl : Nat) (eav : Bool) (rounds : List E91Round),
      E91Protocol.generate_key kl eav (some []) rounds =
        E91Protocol.generate_key kl eav none rounds) ∧
    (∀ (kl : Nat) (eav : Bool) (rounds : List BBM92Round),
      BBM92Protocol.generate_key kl eav (some []) rounds =
        BBM92Protocol.generate_key kl eav none rounds) ∧
    (∀ (kl : Nat) (eav : Bool) (rounds : Nat → TeleRound),
      TeleportationQKD.generate_key kl eav (some []) rounds =
        TeleportationQKD.generate_key kl eav none rounds) ∧
    (∀ (ρ : Type)
      (engine : Nat → Bool → Option (List Char) → ρ → Except String KeyPair)
      (kl : Nat) (eav : Bool) (rounds : ρ),
      run_simulation engine kl eav true [] rounds =
        run_simulation engine kl eav false [] rounds) :=
  ⟨fun _ _ _ => rfl, fun _ _ _ => rfl, fun _ _ _ => rfl, fun _ _ _ => rfl,
    fun _ _ _ _ _ => rfl⟩

/-- C5: In custom-bits mode of the sifting protocols (BB84, E91, BBM92) the
cursor advances exactly on a reconciliation match: a matching round appends
one bit to `bob_key` and advances the cursor by one, a mismatched round
leaves the state — and hence the Alice bit the next attempt reads —
unchanged. -/
theorem sifting_cursor_advance :
    (∀ (eav : Bool) (alice_key : List Nat) (st : List Nat × Nat)
        (r : BB84Round),
      (r.alice_basis = r.bob_basis →
        ∃ b, bb84_custom_step eav alice_key st r = (st.1 ++ [b], st.2 + 1)) ∧
      (r.alice_basis ≠ r.bob_basis →
        bb84_custom_step eav alice_key st r = st)) ∧
    (∀ (eav : Bool) (st : List Nat × Nat) (r : E91Round),
      (r.alice_basis = r.bob_basis →
        ∃ b, e91_custom_step eav st r = (st.1 ++ [b], st.2 + 1)) ∧
      (r.alice_basis ≠ r.bob_basis → e91_custom_step eav st r = st)) ∧
    (∀ (eav : Bool) (st : List Nat × Nat) (r : BBM92Round),
      (r.alice_basis = r.bob_basis →
        ∃ b, bbm92_custom_step eav st r = (st.1 ++ [b], st.2 + 1)) ∧
      (r.alice_basis ≠ r.bob_basis → bbm92_custom_step eav st r = st)) := by
  refine ⟨fun eav alice_key st r => ⟨fun h => ?_, fun h => ?_⟩,
    fun eav st r => ⟨fun h => ?_, fun h => ?_⟩,
    fun eav st r => ⟨fun h => ?_, fun h => ?_⟩⟩
  · exact ⟨(bb84_channel (alice_key.getD st.2 0 == 1) eav r).toNat,
      by simp [bb84_custom_step, h]⟩
  · simp [bb84_custom_step, h]
  · exact ⟨if r.alice_basis = 2 then 1 - (e91_measurements eav r).2.toNat
        else (e91_measurements eav r).2.toNat,
      by simp [e91_custom_step, h]⟩
  · simp [e91_custom_step, h]
  · exact ⟨(bbm92_measurements eav r).2.toNat, by simp [bbm92_custom_step, h]⟩
  · simp [bbm92_custom_step, h]

/-- Witness for C5: one matching BB84 round appends a bit and advances the
cursor; one mismatched E91 round leaves the state untouched. -/
theorem sifting_cursor_advance_witness :
    (∃ b, bb84_custom_step false [1, 0] ([], 0)
        ⟨true, false, false, false, false, false, false⟩ = ([b], 1)) ∧
    e91_custom_step false ([7], 1)
        ⟨0, 1, false, false, false, false, false, false⟩ = ([7], 1) :=
  ⟨(sifting_cursor_advance.1 false [1, 0] ([], 0)
      ⟨true, false, false, false, false, false, false⟩).1 rfl,
    (sifting_cursor_advance.2.1 false ([7], 1)
      ⟨0, 1, false, false, false, false, false, false⟩).2 (by decide)⟩

/-- C3: Through the `/run_simulation` route, a call with a supplied
(non-empty) custom-bit string fails with the `InvalidCustomBits` validation
error (HTTP 400) — before the engine and hence any oracle runs, and with no
partial key in the response — if and only if the string contains a
character outside `{0,1}` or is shorter than `key_length`. The engine
argument is universally quantified, so the validation outcome is
independent of any simulation. -/
theorem custom_bits_validation {ρ : Type}
    (engine : Nat → Bool → Option (List Char) → ρ → Except String KeyPair)
    (key_length : Nat) (eav : Bool) (custom_bits : List Char) (rounds : ρ)
    (hne : custom_bits ≠ []) :
    ((custom_bits.all fun c => c == '0' || c == '1') = false →
      run_simulation engine key_length eav true custom_bits rounds =
        .error ⟨"Custom bits must contain only 0s and 1s", 400⟩) ∧
    ((custom_bits.all fun c => c == '0' || c == '1') = true →
      custom_bits.length < key_length →
      run_simulation engine key_length eav true custom_bits rounds =
        .error ⟨"Custom bits must be at least " ++ toString key_length ++
          " characters long", 400⟩) ∧
    ((∃ err, run_simulation engine key_length eav true custom_bits rounds =
        .error err ∧ err.status = 400) ↔
      ((custom_bits.all fun c => c == '0' || c == '1') = false ∨
        custom_bits.length < key_length)) := by
  have hbe : custom_bits.isEmpty = false := by
    simpa [List.isEmpty_iff] using hne
  refine ⟨fun hall => ?_, fun hall hlen => ?_, ?_⟩
  · simp [run_simulation, hbe, hall]
  · simp [run_simulation, hbe, hall, hlen]
  · by_cases hall : (custom_bits.all fun c => c == '0' || c == '1')
    · by_cases hlen : custom_bits.length < key_length
      · simp [run_simulation, hbe, hall, hlen]
      · simp only [run_simulation, hbe, hall, hlen]
        constructor
        · rintro ⟨err, herr, hstatus⟩
          cases hengine : engine key_length eav (some custom_bits) rounds with
          | ok kp => simp [hengine] at herr
          | error msg =>
            simp [hengine] at herr
            cases herr.symm ▸ hstatus
        · rintro (h | h)
          · exact Bool.noConfusion h
          · exact h.elim
    · simp [run_simulation, hbe, hall]

/-- Witness for C3: `key_length = 8` with the length-5 string `"01010"`
gives the length error; an 8-character string containing `'2'` gives the
alphabet error (BB84 engine, no rounds drawn). -/
theorem custom_bits_validation_witness :
    run_simulation BB84Protocol.generate_key 8 false true
        ['0', '1', '0', '1', '0'] [] =
      .error ⟨"Custom bits must be at least " ++ toString 8 ++
        " characters long", 400⟩ ∧
    run_simulation BB84Protocol.generate_key 8 false true
        ['0', '1', '0', '1', '0', '1', '0', '2'] [] =
      .error ⟨"Custom bits must contain only 0s and 1s", 400⟩ :=
  ⟨(custom_bits_validation BB84Protocol.generate_key 8 false
      ['0', '1', '0', '1', '0'] [] (by decide)).2.1 (by decide) (by decide),
    (custom_bits_validation BB84Protocol.generate_key 8 false
      ['0', '1', '0', '1', '0', '1', '0', '2'] [] (by decide)).1 (by decide)⟩

/-- A string of `'0'`/`'1'` characters parses to the corresponding bit
list. -/
lemma int_list_of_chars_valid (cb : List Char)
    (h : ∀ c ∈ cb, c = '0' ∨ c = '1') :
    int_list_of_chars cb = .ok (cb.map fun c => if c = '1' then 1 else 0) := by
  induction cb with
  | nil => rfl
  | cons c cs ih =>
    have ihcs := ih (fun d hd => h d (List.mem_cons_of_mem c hd))
    rcases h c (List.mem_cons_self c cs) with hc | hc <;> subst hc <;>
      simp [int_list_of_chars, int_of_char, ihcs, Bind.bind, Except.bind]

/-- C4: In custom-bits mode with a valid string (`'0'`/`'1'` only, length at
least `key_length`), each of the four engines succeeds and returns
`alice_key` equal element-by-element to the first `key_length` bits of
`custom_bits`, whatever the rounds — the bits are not filtered by basis
reconciliation (for Teleportation they are the secret-bit sequence). -/
theorem custom_alice_key_verbatim (key_length : Nat) (eav : Bool)
    (custom_bits : List Char) (hne : custom_bits ≠ [])
    (hvalid : ∀ c ∈ custom_bits, c = '0' ∨ c = '1')
    (hlen : key_length ≤ custom_bits.length) :
    (∀ rounds : List BB84Round, ∃ kp,
      BB84Protocol.generate_key key_length eav (some custom_bits) rounds =
        .ok kp ∧
      kp.alice_key = (custom_bits.take key_length).map
        (fun c => if c = '1' then 1 else 0)) ∧
    (∀ rounds : List E91Round, ∃ kp,
      E91Protocol.generate_key key_length eav (some custom_bits) rounds =
        .ok kp ∧
      kp.alice_key = (custom_bits.take key_length).map
        (fun c => if c = '1' then 1 else 0)) ∧
    (∀ rounds : List BBM92Round, ∃ kp,
      BBM92Protocol.generate_key key_length eav (some custom_bits) rounds =
        .ok kp ∧
      kp.alice_key = (custom_bits.take key_length).map
        (fun c => if c = '1' then 1 else 0)) ∧
    (∀ rounds : Nat → TeleRound, ∃ kp,
      TeleportationQKD.generate_key key_length eav (some custom_bits) rounds =
        .ok kp ∧
      kp.alice_key = (custom_bits.take key_length).map
        (fun c => if c = '1' then 1 else 0)) := by
  have hbe : custom_bits.isEmpty = false := by
    simpa [List.isEmpty_iff] using hne
  have ht : py_truthy (some custom_bits) = true := by simp [py_truthy, hbe]
  have hparse := int_list_of_chars_valid custom_bits hvalid
  have hmlen :
      ¬ ((custom_bits.map fun c => if c = '1' then 1 else 0).length <
        key_length) := by
    simp only [List.length_map]
    omega
  refine ⟨fun rounds => ?_, fun rounds => ?_, fun rounds => ?_,
    fun rounds => ?_⟩ <;>
    exact ⟨_, by
        simp only [BB84Protocol.generate_key, E91Protocol.generate_key,
          BBM92Protocol.generate_key, TeleportationQKD.generate_key, ht,
          if_true, Option.getD_some, hparse, hmlen, if_neg, if_false]
        rfl,
      by simp [List.map_take]⟩

/-- Witness for C4: the BB84 engine on `custom_bits = "101"`,
`key_length = 2` returns Alice's key `[1, 0]` verbatim. -/
theorem custom_alice_key_verbatim_witness :
    ∃ kp, BB84Protocol.generate_key 2 false (some ['1', '0', '1']) [] =
        .ok kp ∧
      kp.alice_key = (['1', '0', '1'].take 2).map
        (fun c => if c = '1' then 1 else 0) :=
  (custom_alice_key_verbatim 2 false ['1', '0', '1'] (by decide)
    (by decide) (by decide)).1 []

/-- C9: In custom-bits mode of the E91 and BBM92 engines the returned
`bob_key` does not depend on the content of `custom_bits`: with identical
random draws and oracle outcomes, two valid custom strings produce the
same `bob_key` — Alice's custom bits are never fed into the circuit. -/
theorem custom_bits_noninterference (key_length : Nat) (eav : Bool)
    (cb1 cb2 : List Char) (hne1 : cb1 ≠ []) (hne2 : cb2 ≠ [])
    (hv1 : ∀ c ∈ cb1, c = '0' ∨ c = '1')
    (hv2 : ∀ c ∈ cb2, c = '0' ∨ c = '1')
    (hl1 : key_length ≤ cb1.length) (hl2 : key_length ≤ cb2.length) :
    (∀ rounds : List E91Round, ∃ kp1 kp2,
      E91Protocol.generate_key key_length eav (some cb1) rounds = .ok kp1 ∧
      E91Protocol.generate_key key_length eav (some cb2) rounds = .ok kp2 ∧
      kp1.bob_key = kp2.bob_key) ∧
    (∀ rounds : List BBM92Round, ∃ kp1 kp2,
      BBM92Protocol.generate_key key_length eav (some cb1) rounds = .ok kp1 ∧
      BBM92Protocol.generate_key key_length eav (some cb2) rounds = .ok kp2 ∧
      kp1.bob_key = kp2.bob_key) := by
  have hbe1 : cb1.isEmpty = false := by simpa [List.isEmpty_iff] using hne1
  have hbe2 : cb2.isEmpty = false := by simpa [List.isEmpty_iff] using hne2
  have ht1 : py_truthy (some cb1) = true := by simp [py_truthy, hbe1]
  have ht2 : py_truthy (some cb2) = true := by simp [py_truthy, hbe2]
  have hparse1 := int_list_of_chars_valid cb1 hv1
  have hparse2 := int_list_of_chars_valid cb2 hv2
  have hmlen1 :
      ¬ ((cb1.map fun c => if c = '1' then 1 else 0).length < key_length) := by
    simp only [List.length_map]
    omega
  have hmlen2 :
      ¬ ((cb2.map fun c => if c = '1' then 1 else 0).length < key_length) := by
    simp only [List.length_map]
    omega
  refine ⟨fun rounds =>
      ⟨⟨(cb1.map fun c => if c = '1' then 1 else 0).take key_length,
          (sift_loop (fun st => st.1.length < key_length)
            (e91_custom_step eav) rounds ([], 0)).1, "E91", eav⟩,
        ⟨(cb2.map fun c => if c = '1' then 1 else 0).take key_length,
          (sift_loop (fun st => st.1.length < key_length)
            (e91_custom_step eav) rounds ([], 0)).1, "E91", eav⟩,
        ?_, ?_, rfl⟩,
    fun rounds =>
      ⟨⟨(cb1.map fun c => if c = '1' then 1 else 0).take key_length,
          (sift_loop (fun st => st.1.length < key_length)
            (bbm92_custom_step eav) rounds ([], 0)).1, "BBM92", eav⟩,
        ⟨(cb2.map fun c => if c = '1' then 1 else 0).take key_length,
          (sift_loop (fun st => st.1.length < key_length)
            (bbm92_custom_step eav) rounds ([], 0)).1, "BBM92", eav⟩,
        ?_, ?_, rfl⟩⟩
  · simp [E91Protocol.generate_key, ht1, hparse1, hmlen1]
    omega
  · simp [E91Protocol.generate_key, ht2, hparse2, hmlen2]
    omega
  · simp [BBM92Protocol.generate_key, ht1, hparse1, hmlen1]
    omega
  · simp [BBM92Protocol.generate_key, ht2, hparse2, hmlen2]
    omega

/-- Witness for C9: with one matching-basis E91 round, custom strings
`"10"` and `"01"` (`key_length = 2`) yield the same `bob_key`. -/
theorem custom_bits_noninterference_witness :
    ∃ kp1 kp2,
      E91Protocol.generate_key 2 false (some ['1', '0'])
          [⟨0, 0, true, false, false, false, false, false⟩] = .ok kp1 ∧
      E91Protocol.generate_key 2 false (some ['0', '1'])
          [⟨0, 0, true, false, false, false, false, false⟩] = .ok kp2 ∧
      kp1.bob_key = kp2.bob_key :=
  (custom_bits_noninterference 2 false ['1', '0'] ['0', '1'] (by decide)
    (by decide) (by decide) (by decide) (by decide) (by decide)).1
    [⟨0, 0, true, false, false, false, false, false⟩]

/-- Any custom-mode sifting loop whose body appends at most one bit per
round keeps `bob_key` within `key_length` bits. -/
lemma sift_loop_length_le {α : Type} (kl : Nat)
    (step : (List Nat × Nat) → α → (List Nat × Nat))
    (hstep : ∀ st r, (step st r).1.length ≤ st.1.length + 1)
    (rounds : List α) :
    (sift_loop (fun st => st.1.length < kl) step rounds ([], 0)).1.length ≤
      kl :=
  sift_loop_invariant (fun st => st.1.length < kl) step
    (fun st => st.1.length ≤ kl)
    (fun st r hg _ => le_trans (hstep st r)
      (Nat.succ_le_of_lt (by simpa using hg)))
    rounds ([], 0) (by simp)

/-- Any random-mode sifting loop whose body either leaves the state alone
or appends one bit to each key keeps the two keys at equal length. -/
lemma sift_loop_sync_lengths {α : Type} (kl : Nat)
    (step : (List Nat × List Nat) → α → (List Nat × List Nat))
    (hstep : ∀ st r,
      ((step st r).1.length = st.1.length ∧
        (step st r).2.length = st.2.length) ∨
      ((step st r).1.length = st.1.length + 1 ∧
        (step st r).2.length = st.2.length + 1))
    (rounds : List α) :
    (sift_loop (fun st => st.1.length < kl) step rounds ([], [])).1.length =
      (sift_loop (fun st => st.1.length < kl) step rounds ([], [])).2.length :=
  sift_loop_invariant (fun st => st.1.length < kl) step
    (fun st => st.1.length = st.2.length)
    (fun st r _ hP => by rcases hstep st r with ⟨h1, h2⟩ | ⟨h1, h2⟩ <;> omega)
    rounds ([], []) rfl

/-- The BB84 random-mode body appends to both keys or to neither. -/
lemma bb84_random_step_lengths (eav : Bool) (st : List Nat × List Nat)
    (r : BB84Round) :
    ((bb84_random_step eav st r).1.length = st.1.length ∧
      (bb84_random_step eav st r).2.length = st.2.length) ∨
    ((bb84_random_step eav st r).1.length = st.1.length + 1 ∧
      (bb84_random_step eav st r).2.length = st.2.length + 1) := by
  by_cases h : r.alice_basis = r.bob_basis
  · right
    simp [bb84_random_step, h]
  · left
    simp [bb84_random_step, h]

/-- The E91 random-mode body appends to both keys or to neither. -/
lemma e91_random_step_lengths (eav : Bool) (st : List Nat × List Nat)
    (r : E91Round) :
    ((e91_random_step eav st r).1.length = st.1.length ∧
      (e91_random_step eav st r).2.length = st.2.length) ∨
    ((e91_random_step eav st r).1.length = st.1.length + 1 ∧
      (e91_random_step eav st r).2.length = st.2.length + 1) := by
  by_cases h : r.alice_basis = r.bob_basis
  · right
    simp [e91_random_step, h]
  · left
    simp [e91_random_step, h]

/-- The BBM92 random-mode body appends to both keys or to neither. -/
lemma bbm92_random_step_lengths (eav : Bool) (st : List Nat × List Nat)
    (r : BBM92Round) :
    ((bbm92_random_step eav st r).1.length = st.1.length ∧
      (bbm92_random_step eav st r).2.length = st.2.length) ∨
    ((bbm92_random_step eav st r).1.length = st.1.length + 1 ∧
      (bbm92_random_step eav st r).2.length = st.2.length + 1) := by
  by_cases h : r.alice_basis = r.bob_basis
  · right
    simp [bbm92_random_step, h]
  · left
    simp [bbm92_random_step, h]

/-- `py_truthy none` is never true (random mode). -/
lemma py_truthy_none : ¬ (py_truthy none = true) := by simp [py_truthy]

/-- C2: For every protocol engine, in random mode and in custom-bits mode,
whenever `generate_key` completes successfully (Bob's key has reached
`key_length`, which is where every generation loop stops) the returned
`alice_key` and `bob_key` both have length exactly `key_length`; the
Teleportation engine needs no completion hypothesis since its loop is a
bounded `for`. -/
theorem key_length_on_success :
    (∀ (kl : Nat) (eav : Bool) (cb : Option (List Char))
        (rounds : List BB84Round) (kp : KeyPair),
      BB84Protocol.generate_key kl eav cb rounds = .ok kp →
      kp.bob_key.length = kl →
      kp.alice_key.length = kl ∧ kp.bob_key.length = kl) ∧
    (∀ (kl : Nat) (eav : Bool) (cb : Option (List Char))
        (rounds : List E91Round) (kp : KeyPair),
      E91Protocol.generate_key kl eav cb rounds = .ok kp →
      kp.bob_key.length = kl →
      kp.alice_key.length = kl ∧ kp.bob_key.length = kl) ∧
    (∀ (kl : Nat) (eav : Bool) (cb : Option (List Char))
        (rounds : List BBM92Round) (kp : KeyPair),
      BBM92Protocol.generate_key kl eav cb rounds = .ok kp →
      kp.bob_key.length = kl →
      kp.alice_key.length = kl ∧ kp.bob_key.length = kl) ∧
    (∀ (kl : Nat) (eav : Bool) (cb : Option (List Char))
        (rounds : Nat → TeleRound) (kp : KeyPair),
      TeleportationQKD.generate_key kl eav cb rounds = .ok kp →
      kp.alice_key.length = kl ∧ kp.bob_key.length = kl) := by
  refine ⟨fun kl eav cb rounds kp h hbob => ?_,
    fun kl eav cb rounds kp h hbob => ?_,
    fun kl eav cb rounds kp h hbob => ?_,
    fun kl eav cb rounds kp h => ?_⟩
  · unfold BB84Protocol.generate_key at h
    by_cases htr : py_truthy cb = true
    · rw [if_pos htr] at h
      cases hp : int_list_of_chars (cb.getD []) with
      | error e => simp [hp] at h
      | ok bits =>
        simp only [hp] at h
        by_cases hlen : bits.length < kl
        · rw [if_pos hlen] at h
          exact Except.noConfusion h
        · rw [if_neg hlen] at h
          cases h
          refine ⟨?_, hbob⟩
          simp only [List.length_take]
          omega
    · rw [if_neg htr] at h
      cases h
      have hsync := sift_loop_sync_lengths kl (bb84_random_step eav)
        (bb84_random_step_lengths eav) rounds
      exact ⟨hsync.trans hbob, hbob⟩
  · unfold E91Protocol.generate_key at h
    by_cases htr : py_truthy cb = true
    · rw [if_pos htr] at h
      cases hp : int_list_of_chars (cb.getD []) with
      | error e => simp [hp] at h
      | ok bits =>
        simp only [hp] at h
        by_cases hlen : bits.length < kl
        · rw [if_pos hlen] at h
          exact Except.noConfusion h
        · rw [if_neg hlen] at h
          cases h
          refine ⟨?_, hbob⟩
          simp only [List.length_take]
          omega
    · rw [if_neg htr] at h
      cases h
      have hsync := sift_loop_sync_lengths kl (e91_random_step eav)
        (e91_random_step_lengths eav) rounds
      exact ⟨hsync.trans hbob, hbob⟩
  · unfold BBM92Protocol.generate_key at h
    by_cases htr : py_truthy cb = true
    · rw [if_pos htr] at h
      cases hp : int_list_of_chars (cb.getD []) with
      | error e => simp [hp] at h
      | ok bits =>
        simp only [hp] at h
        by_cases hlen : bits.length < kl
        · rw [if_pos hlen] at h
          exact Except.noConfusion h
        · rw [if_neg hlen] at h
          cases h
          refine ⟨?_, hbob⟩
          simp only [List.length_take]
          omega
    · rw [if_neg htr] at h
      cases h
      have hsync := sift_loop_sync_lengths kl (bbm92_random_step eav)
        (bbm92_random_step_lengths eav) rounds
      exact ⟨hsync.trans hbob, hbob⟩
  · unfold TeleportationQKD.generate_key at h
    by_cases htr : py_truthy cb = true
    · rw [if_pos htr] at h
      cases hp : int_list_of_chars (cb.getD []) with
      | error e => simp [hp] at h
      | ok bits =>
        simp only [hp] at h
        by_cases hlen : bits.length < kl
        · rw [if_pos hlen] at h
          exact Except.noConfusion h
        · rw [if_neg hlen] at h
          cases h
          constructor
          · simp only [List.length_take]
            omega
          · simp
    · rw [if_neg htr] at h
      cases h
      constructor <;> simp

/-- Witness for C2: a single matching-basis BB84 round at `key_length = 1`
completes with both keys of length 1. -/
theorem key_length_on_success_witness :
    (⟨[1], [1], "BB84", false⟩ : KeyPair).alice_key.length = 1 ∧
    (⟨[1], [1], "BB84", false⟩ : KeyPair).bob_key.length = 1 :=
  key_length_on_success.1 1 false none
    [⟨true, false, false, false, false, false, false⟩]
    ⟨[1], [1], "BB84", false⟩ rfl rfl

/-- Zipping a key with itself makes every position agree. -/
lemma countP_zip_self (k : List Nat) :
    ((k.zip k).countP fun p => p.1 == p.2) = k.length := by
  induction k with
  | nil => rfl
  | cons a as ih => simp [List.countP_cons, ih]

/-- The evaluator on two identical non-empty keys: full agreement, zero
error rate. -/
lemma metrics_equal_keys (k : List Nat) (e : Bool) (hk : k ≠ []) :
    (calculate_security_metrics k k e).agreement_rate = 1 ∧
    (calculate_security_metrics k k e).qber = 0 := by
  have hbe : k.isEmpty = false := by simpa [List.isEmpty_iff] using hk
  have hlen : (k.length : ℚ) ≠ 0 := by
    simpa [List.length_eq_zero] using hk
  simp [calculate_security_metrics, hbe, countP_zip_self, div_self hlen]

/-- Without Eve, a matching-basis BB84 random round hands Bob exactly
Alice's bit, so the two keys grow identically. -/
lemma bb84_random_step_noiseless (st : List Nat × List Nat) (r : BB84Round)
    (h : st.2 = st.1) :
    (bb84_random_step false st r).2 = (bb84_random_step false st r).1 := by
  by_cases hb : r.alice_basis = r.bob_basis <;>
    simp [bb84_random_step, bb84_channel, measure_single, hb, h]

/-- Without Eve, a matching-basis E91 random round hands Bob Alice's bit
(after the circular-basis flip), so the two keys grow identically. -/
lemma e91_random_step_noiseless (st : List Nat × List Nat) (r : E91Round)
    (h : st.2 = st.1) :
    (e91_random_step false st r).2 = (e91_random_step false st r).1 := by
  by_cases hb : r.alice_basis = r.bob_basis
  · by_cases h2 : r.alice_basis = 2
    · have hb2 : r.bob_basis = 2 := hb ▸ h2
      cases hpd : r.pair_draw <;>
        simp [e91_random_step, e91_measurements, hb, h2, hb2, hpd, h]
    · have hb2 : ¬ r.bob_basis = 2 := hb ▸ h2
      cases hpd : r.pair_draw <;>
        simp [e91_random_step, e91_measurements, hb, h2, hb2, hpd, h]
  · simp [e91_random_step, e91_measurements, hb, h]

/-- Without Eve, a matching-basis BBM92 random round hands Bob Alice's
bit, so the two keys grow identically. -/
lemma bbm92_random_step_noiseless (st : List Nat × List Nat)
    (r : BBM92Round) (h : st.2 = st.1) :
    (bbm92_random_step false st r).2 = (bbm92_random_step false st r).1 := by
  by_cases hb : r.alice_basis = r.bob_basis <;>
    simp [bbm92_random_step, bbm92_measurements, hb, h]

/-- The sifting protocols do satisfy the noiseless-exactness property:
for BB84, E91 and BBM92 with `key_length ≥ 1` and no eavesdropping,
against a backend obeying the §4.1 oracle contract, every completed
`generate_key` run returns `bob_key` equal position-by-position to
`alice_key`, so the evaluator yields agreement 1 and qber 0. -/
theorem sifting_noiseless_exact_agreement (key_length : Nat)
    (hkl : 1 ≤ key_length) :
    (∀ (rounds : List BB84Round) (kp : KeyPair),
      BB84Protocol.generate_key key_length false none rounds = .ok kp →
      kp.bob_key.length = key_length →
      kp.bob_key = kp.alice_key ∧
      (calculate_security_metrics kp.alice_key kp.bob_key
        false).agreement_rate = 1 ∧
      (calculate_security_metrics kp.alice_key kp.bob_key false).qber = 0) ∧
    (∀ (rounds : List E91Round) (kp : KeyPair),
      E91Protocol.generate_key key_length false none rounds = .ok kp →
      kp.bob_key.length = key_length →
      kp.bob_key = kp.alice_key ∧
      (calculate_security_metrics kp.alice_key kp.bob_key
        false).agreement_rate = 1 ∧
      (calculate_security_metrics kp.alice_key kp.bob_key false).qber = 0) ∧
    (∀ (rounds : List BBM92Round) (kp : KeyPair),
      BBM92Protocol.generate_key key_length false none rounds = .ok kp →
      kp.bob_key.length = key_length →
      kp.bob_key = kp.alice_key ∧
      (calculate_security_metrics kp.alice_key kp.bob_key
        false).agreement_rate = 1 ∧
      (calculate_security_metrics kp.alice_key kp.bob_key false).qber = 0) := by
  refine ⟨fun rounds kp h hbob => ?_, fun rounds kp h hbob => ?_,
    fun rounds kp h hbob => ?_⟩
  · unfold BB84Protocol.generate_key at h
    rw [if_neg py_truthy_none] at h
    cases h
    dsimp only at hbob ⊢
    have heq : (sift_loop (fun st => st.1.length < key_length)
        (bb84_random_step false) rounds ([], [])).2 =
      (sift_loop (fun st => st.1.length < key_length)
        (bb84_random_step false) rounds ([], [])).1 :=
      sift_loop_invariant (fun st => st.1.length < key_length)
        (bb84_random_step false) (fun st => st.2 = st.1)
        (fun st r _ hP => bb84_random_step_noiseless st r hP)
        rounds ([], []) rfl
    have hne : (sift_loop (fun st => st.1.length < key_length)
        (bb84_random_step false) rounds ([], [])).1 ≠ [] := by
      intro hcon
      rw [heq, hcon] at hbob
      simp at hbob
      omega
    refine ⟨heq, ?_, ?_⟩ <;> rw [heq]
    · exact (metrics_equal_keys _ false hne).1
    · exact (metrics_equal_keys _ false hne).2
  · unfold E91Protocol.generate_key at h
    rw [if_neg py_truthy_none] at h
    cases h
    dsimp only at hbob ⊢
    have heq : (sift_loop (fun st => st.1.length < key_length)
        (e91_random_step false) rounds ([], [])).2 =
      (sift_loop (fun st => st.1.length < key_length)
        (e91_random_step false) rounds ([], [])).1 :=
      sift_loop_invariant (fun st => st.1.length < key_length)
        (e91_random_step false) (fun st => st.2 = st.1)
        (fun st r _ hP => e91_random_step_noiseless st r hP)
        rounds ([], []) rfl
    have hne : (sift_loop (fun st => st.1.length < key_length)
        (e91_random_step false) rounds ([], [])).1 ≠ [] := by
      intro hcon
      rw [heq, hcon] at hbob
      simp at hbob
      omega
    refine ⟨heq, ?_, ?_⟩ <;> rw [heq]
    · exact (metrics_equal_keys _ false hne).1
    · exact (metrics_equal_keys _ false hne).2
  · unfold BBM92Protocol.generate_key at h
    rw [if_neg py_truthy_none] at h
    cases h
    dsimp only at hbob ⊢
    have heq : (sift_loop (fun st => st.1.length < key_length)
        (bbm92_random_step false) rounds ([], [])).2 =
      (sift_loop (fun st => st.1.length < key_length)
        (bbm92_random_step false) rounds ([], [])).1 :=
      sift_loop_invariant (fun st => st.1.length < key_length)
        (bbm92_random_step false) (fun st => st.2 = st.1)
        (fun st r _ hP => bbm92_random_step_noiseless st r hP)
        rounds ([], []) rfl
    have hne : (sift_loop (fun st => st.1.length < key_length)
        (bbm92_random_step false) rounds ([], [])).1 ≠ [] := by
      intro hcon
      rw [heq, hcon] at hbob
      simp at hbob
      omega
    refine ⟨heq, ?_, ?_⟩ <;> rw [heq]
    · exact (metrics_equal_keys _ false hne).1
    · exact (metrics_equal_keys _ false hne).2

/-- C1: the code does not satisfy the claim for the Teleportation engine.
Bob's bit is `bob_reconstruct` of the X-correction bit c1 measured on a
fresh |0⟩ qubit (app.py lines 494-499) — a uniform bit independent of the
secret — so a noiseless (`include_eavesdropping = false`) run at
`key_length = 1` whose Bell-measurement draw is c1 = 0 while Alice's
secret bit is 1 returns `alice_key = [1]`, `bob_key = [0]`, and the
evaluator reports qber = 1, not the claimed 0. -/
theorem teleportation_noiseless_mismatch :
    ∃ kp, TeleportationQKD.generate_key 1 false none
        (fun _ => ⟨true, false, false, false, false⟩) = .ok kp ∧
      kp.alice_key = [1] ∧ kp.bob_key = [0] ∧
      (calculate_security_metrics kp.alice_key kp.bob_key false).qber = 1 :=
  ⟨⟨[1], [0], "Teleportation QKD", false⟩, rfl, rfl, rfl,
    by norm_num [calculate_security_metrics, List.countP_cons]⟩

end QKDApp
